import Mathlib

/-!
Shallow embedding of `run.py` from the `llm_drug_effect` repository.

Python strings are modelled as lists of Unicode code points (`List Char`),
which matches Python string semantics (a `str` is a sequence of code
points).  The external generation engine (`llm.chat`) is modelled as an
explicit parameter `gen : List Message → List Char` mapping one
conversation to one generated text; the engine is assumed to return one
output per submitted conversation in submission order, so a call on a
batch is the elementwise `map` of `gen` over the batch.  A `float` value
is modelled as a rational number; Python exceptions raised and caught
inside the parsing block are modelled with `Except`.
-/

/-- Python whitespace test used by `str.strip` and `float` (restricted to
the ASCII whitespace characters relevant here). -/
def pyWS (c : Char) : Bool :=
  c.isWhitespace

/-- Python `s.split(sep)` for a one-character separator `sep`: splits on
every occurrence, keeps empty fragments, and returns `[[]]` on the empty
string (Python: `"".split(sep) == [""]`). -/
def pySplit (sep : Char) : List Char → List (List Char)
  | [] => [[]]
  | c :: cs =>
    if c = sep then
      [] :: pySplit sep cs
    else
      match pySplit sep cs with
      | [] => [[c]]
      | p :: ps => (c :: p) :: ps

/-- Python `s.strip()`: remove leading and trailing whitespace. -/
def pyStrip (cs : List Char) : List Char :=
  (cs.dropWhile pyWS).rdropWhile pyWS

/-- Value of a digit string, most significant digit first. -/
def digitsVal (ds : List Char) : Nat :=
  ds.foldl (fun a c => 10 * a + (c.toNat - 48)) 0

/-- Split a character list into its leading run of decimal digits and the
rest. -/
def takeDigits (cs : List Char) : List Char × List Char :=
  (cs.takeWhile Char.isDigit, cs.dropWhile Char.isDigit)

/-- Mantissa of a Python float literal: `digits`, `digits.digits`,
`digits.` or `.digits`.  The mantissa `ip.fp` denotes the rational
`(ip * 10 ^ |fp| + fp) / 10 ^ |fp|`; it is returned as the integer
numerator together with the fraction length `|fp|` (so that the exact
rational value can later be formed with `Rat.divInt`, keeping every
arithmetic step kernel-computable), plus the unconsumed rest. -/
def parseMantissa (cs : List Char) : Option (Int × Nat × List Char) :=
  let (ip, rest) := takeDigits cs
  match rest with
  | '.' :: rest2 =>
    let (fp, rest3) := takeDigits rest2
    if ip.isEmpty ∧ fp.isEmpty then
      none
    else
      some ((digitsVal ip * 10 ^ fp.length + digitsVal fp : Int), fp.length, rest3)
  | _ =>
    if ip.isEmpty then none else some ((digitsVal ip : Int), 0, rest)

/-- Optional exponent part of a Python float literal: `e` or `E`, an
optional sign, and at least one digit; consumes nothing when no exponent
marker is present. -/
def parseExp (cs : List Char) : Option (Int × List Char) :=
  match cs with
  | [] => some (0, [])
  | c :: rest =>
    if c = 'e' ∨ c = 'E' then
      let (sgn, rest2) : Int × List Char :=
        match rest with
        | '+' :: r => (1, r)
        | '-' :: r => (-1, r)
        | r => (1, r)
      let (ds, rest3) := takeDigits rest2
      if ds.isEmpty then none else some (sgn * (digitsVal ds : Int), rest3)
    else
      some (0, cs)

/-- Python builtin `float(s)` on finite decimal literals: strip
whitespace, optional sign, mantissa, optional exponent, end of string.
The value is kept exact as a rational (IEEE rounding is abstracted away;
it preserves equality of identical literals).  The special inputs
`inf`/`nan` and digit-group underscores accepted by Python never occur in
the texts the claims are about and are outside this model. -/
def pyFloatQ (s : List Char) : Option ℚ :=
  let cs := pyStrip s
  let (sgn, cs1) : Int × List Char :=
    match cs with
    | '+' :: r => (1, r)
    | '-' :: r => (-1, r)
    | r => (1, r)
  match parseMantissa cs1 with
  | none => none
  | some (mnum, flen, rest) =>
    match parseExp rest with
    | none => none
    | some (e, rest2) =>
      if rest2 = [] then
        some (if 0 ≤ e then
                Rat.divInt (sgn * mnum * 10 ^ e.toNat) (10 ^ flen)
              else
                Rat.divInt (sgn * mnum) (10 ^ flen * 10 ^ (-e).toNat))
      else none

/-- Python exception kinds caught by the parsing block in `run.py`
(`except (IndexError, ValueError)`). -/
inductive PyErr : Type
  | indexError : PyErr
  | valueError : PyErr
deriving DecidableEq, Repr

/-- Python `float(s)` as a fallible operation: raises `ValueError` when
`s` is not a float literal. -/
def pyFloatE (s : List Char) : Except PyErr ℚ :=
  match pyFloatQ s with
  | some q => Except.ok q
  | none => Except.error PyErr.valueError

/-- Python list indexing `l[i]` for `i ≥ 0`: raises `IndexError` out of
range. -/
def pyGet (l : List α) (i : Nat) : Except PyErr α :=
  match l.get? i with
  | some a => Except.ok a
  | none => Except.error PyErr.indexError

/-- The literal marker substring searched for in each response line
(`run.py` line 73). -/
def markerL : List Char :=
  ("Estimated Probability").toList

/-- Body of the `try:` block in `run.py` lines 76-79:
`float(probability_line[0].split(":")[1].strip())`, applied to the
selected marker line. -/
def tryParseLine (line : List Char) : Except PyErr ℚ := do
  let second ← pyGet (pySplit ':' line) 1
  pyFloatE (pyStrip second)

/-- The per-response probability extraction of `run.py` lines 70-84:
split the response on newlines, keep the lines containing the marker,
and on the first such line run the `try:` block, turning a caught
`IndexError`/`ValueError` into `none`; `none` also when no line contains
the marker. -/
def parseProbability (response_text : List Char) : Option ℚ :=
  let lines := pySplit '\n' response_text
  let probability_line := lines.filter (fun line => decide (markerL <:+: line))
  match probability_line with
  | [] => none
  | line :: _ =>
    match tryParseLine line with
    | Except.ok q => some q
    | Except.error _ => none

/-- The fixed system instruction of `run.py` lines 6-11. -/
def SYSTEM_PROMPT : List Char :=
  ("You are a medical language model designed to estimate the probability that a patient has Type II diabetes based on a specific medicine. Your goal is to provide the probability as a clear float. Please keep your reasoning concise and avoid unnecessary explanations. Always output your final answer as a float number on a new line starting with \x27Estimated Probability:\x27.").toList

/-- A role-tagged chat message. -/
structure Message : Type where
  role : List Char
  content : List Char
deriving DecidableEq, Repr

/-- `create_conversation(drug, cot)` of `run.py` lines 14-35: a system
message followed by a user message interpolating the drug name.  Note
the source has no space between `step-by-step.` and `You should` in the
`cot` variant (adjacent string literals). -/
def create_conversation (drug : List Char) (cot : Bool) : List Message :=
  [ { role := ("system").toList, content := SYSTEM_PROMPT },
    { role := ("user").toList,
      content :=
        if cot then
          ("Given that a patient took ").toList ++ drug ++
            (", estimate the probability that they have Type II diabetes. You may think aloud and reason step-by-step.You should provide the final answer on a new line in the format: \x27Estimated Probability: X\x27, where X is the probability.").toList
        else
          ("Given that a patient took ").toList ++ drug ++
            (", estimate the probability that they have Type II diabetes. You should provide the final answer on a new line in the format: \x27Estimated Probability: X\x27, where X is the probability.").toList } ]

/-- Python `range(0, stop, step)` (the loop header of `run.py` line 56):
raises `ValueError` when `step = 0`; empty when `step < 0` (since
`start = 0 ≤ stop`); for `step > 0` yields `0, step, 2*step, ...` below
`stop`, i.e. `⌈stop/step⌉` values. -/
def pyRangeZero (stop : Nat) (step : Int) : Option (List Nat) :=
  if step = 0 then
    none
  else if step < 0 then
    some []
  else
    some ((List.range ((stop + step.toNat - 1) / step.toNat)).map (fun j => j * step.toNat))

/-- Body of the inner loop of `run.py` lines 67-86 for one output:
append the raw response text and the parsed probability (the `try`
around the parse swallows `IndexError`/`ValueError` into `None`) to the
two accumulator lists. -/
def processOutput (acc : List (Option ℚ) × List (List Char)) (response_text : List Char) :
    List (Option ℚ) × List (List Char) :=
  (acc.1 ++ [parseProbability response_text], acc.2 ++ [response_text])

/-- `estimate_diabetes_probability(drugs, cot, batch_size)` of `run.py`
lines 38-88, with the external engine as the explicit parameter `gen`.
For each start index `i` of `range(0, len(drugs), batch_size)` the slice
`drugs[i:i+batch_size]` is turned into conversations, submitted, and the
outputs are parsed in order.  A `batch_size` of zero makes the `range`
call raise, modelled by `none`; for the executed positive `batch_size`
the Python slice equals `(drugs.drop i).take batch_size.toNat`. -/
def estimate_diabetes_probability (gen : List Message → List Char)
    (drugs : List (List Char)) (cot : Bool) (batch_size : Int) :
    Option (List (Option ℚ) × List (List Char)) :=
  match pyRangeZero drugs.length batch_size with
  | none => none
  | some starts =>
    some (starts.foldl
      (fun acc i =>
        let batch_drugs := (drugs.drop i).take batch_size.toNat
        let conversations := batch_drugs.map (fun drug => create_conversation drug cot)
        let outputs := conversations.map gen
        outputs.foldl processOutput acc)
      ([], []))

/-- The constant part of the user message before the drug name. -/
def userPrefixA : List Char :=
  ("Given that a patient took ").toList

/-- The constant part of the user message after the drug name and before
the optional reasoning clause. -/
def userPrefixB : List Char :=
  (", estimate the probability that they have Type II diabetes. ").toList

/-- The single clause by which the two user-message variants differ (the
step-by-step invitation), present only when `cot` is set. -/
def reasoningClause : List Char :=
  ("You may think aloud and reason step-by-step.").toList

/-- The closing clause shared by both user-message variants, mandating
the final-line format with the literal marker. -/
def formatClause : List Char :=
  ("You should provide the final answer on a new line in the format: \x27Estimated Probability: X\x27, where X is the probability.").toList

/-- Modelled from the spec: the response-parsing algorithm as worded in
the spec, section 4.3 step 4 — split the marker line on the FIRST colon
and take everything after it (later colons included), strip, and parse
as a float.  Stated for comparison with `parseProbability`, which embeds
the actual code. -/
def parseSpecAfterFirstColon (response_text : List Char) : Option ℚ :=
  let lines := pySplit '\n' response_text
  match lines.filter (fun line => decide (markerL <:+: line)) with
  | [] => none
  | line :: _ =>
    match line.dropWhile (fun c => !(c == ':')) with
    | [] => none
    | _ :: afterFirstColon => pyFloatQ (pyStrip afterFirstColon)

/-- A fixed deterministic stub for the generation engine, used to
instantiate universally quantified results on concrete inputs. -/
def stubGen : List Message → List Char :=
  fun _ => ("Estimated Probability: 0.5").toList

/-- The output path choice of `run.py` line 125:
`"drug_t2d_15980_probas.parquet" if not args.cot else
"drug_t2d_15980_probas_cot.parquet"`. -/
def save_path (cot : Bool) : List Char :=
  if cot = false then
    ("drug_t2d_15980_probas.parquet").toList
  else
    ("drug_t2d_15980_probas_cot.parquet").toList

/-- Positions `0, step, 2*step, ...` produced by the loop header for a
positive step, named for the proofs below. -/
def batchStarts (k n : Nat) : List Nat :=
  (List.range ((n + k - 1) / k)).map (fun j => j * k)

/-! ### Helper lemmas about `pySplit` -/

theorem pySplit_ne_nil (sep : Char) (cs : List Char) : pySplit sep cs ≠ [] := by
  cases cs with
  | nil => simp [pySplit]
  | cons c cs =>
    simp only [pySplit]
    split
    · simp
    · split <;> simp

theorem pySplit_sep_free (sep : Char) (b : List Char) (hb : ∀ c ∈ b, ¬ c = sep) :
    pySplit sep b = [b] := by
  induction b with
  | nil => rfl
  | cons c cs ih =>
    have hc : ¬ c = sep := hb c (by simp)
    have ih' : pySplit sep cs = [cs] := ih (fun d hd => hb d (by simp [hd]))
    simp [pySplit, hc, ih']

theorem pySplit_append (sep : Char) (a b : List Char) (ha : ∀ c ∈ a, ¬ c = sep) :
    pySplit sep (a ++ sep :: b) = a :: pySplit sep b := by
  induction a with
  | nil => simp [pySplit]
  | cons c cs ih =>
    have hc : ¬ c = sep := ha c (by simp)
    have ih' := ih (fun d hd => ha d (by simp [hd]))
    simp only [List.cons_append, pySplit, if_neg hc, List.append_eq, ih']

theorem pySplit_head (sep : Char) (b : List Char) :
    ∃ t, pySplit sep b = b.takeWhile (fun c => !(c == sep)) :: t := by
  induction b with
  | nil => exact ⟨[], rfl⟩
  | cons c cs ih =>
    by_cases hc : c = sep
    · refine ⟨pySplit sep cs, ?_⟩
      simp [pySplit, hc, List.takeWhile_cons]
    · obtain ⟨t, ht⟩ := ih
      refine ⟨t, ?_⟩
      simp [pySplit, hc, ht, List.takeWhile_cons]

theorem pySplit_length (sep : Char) (l : List Char) :
    (pySplit sep l).length = l.count sep + 1 := by
  induction l with
  | nil => rfl
  | cons c cs ih =>
    by_cases hc : c = sep
    · subst hc
      simp [pySplit, ih, List.count_cons]
    · cases h : pySplit sep cs with
      | nil => exact absurd h (pySplit_ne_nil _ _)
      | cons p ps =>
        have hcount := ih
        rw [h] at hcount
        have hne : (c == sep) = false := by simp [hc]
        simp only [pySplit, if_neg hc, h, List.length_cons, List.count_cons, hne]
        simp only [List.length_cons] at hcount
        simp only [Bool.false_eq_true, if_false]
        omega

/-! ### Helper lemmas about `pyStrip` and `pyFloatQ` -/

theorem pyStrip_cons_ws (c : Char) (l : List Char) (hc : pyWS c = true) :
    pyStrip (c :: l) = pyStrip l := by
  simp [pyStrip, List.dropWhile_cons, hc]

theorem dropWhile_pyStrip (l : List Char) :
    (pyStrip l).dropWhile pyWS = pyStrip l := by
  rw [pyStrip]
  have hdrop : (l.dropWhile pyWS).dropWhile pyWS = l.dropWhile pyWS :=
    List.dropWhile_idempotent pyWS l
  rcases List.rdropWhile_prefix pyWS (l.dropWhile pyWS) with ⟨t, ht⟩
  cases hY : (l.dropWhile pyWS).rdropWhile pyWS with
  | nil => simp
  | cons y ys =>
    rw [hY] at ht
    have hhead : ((y :: ys) ++ t).dropWhile pyWS = (y :: ys) ++ t := by
      rw [ht]; exact hdrop
    rw [List.cons_append, List.dropWhile_cons] at hhead
    by_cases hy : pyWS y = true
    · exfalso
      rw [if_pos hy] at hhead
      have hsuf := (List.dropWhile_suffix (l := ys ++ t) pyWS).length_le
      have := congrArg List.length hhead
      rw [List.length_cons] at this
      omega
    · rw [List.dropWhile_cons, if_neg hy]

theorem pyStrip_idem (l : List Char) : pyStrip (pyStrip l) = pyStrip l := by
  rw [pyStrip, dropWhile_pyStrip, pyStrip, List.rdropWhile_idempotent]

theorem pyFloatQ_pyStrip (s : List Char) : pyFloatQ (pyStrip s) = pyFloatQ s := by
  rw [pyFloatQ, pyFloatQ, pyStrip_idem]

/-! ### Helper lemmas about the fold structure of the batch loop -/

theorem foldl_processOutput (outs : List (List Char)) :
    ∀ acc, outs.foldl processOutput acc =
      (acc.1 ++ outs.map parseProbability, acc.2 ++ outs) := by
  induction outs with
  | nil => intro acc; simp
  | cons o os ih =>
    intro acc
    rw [List.foldl_cons, ih]
    simp [processOutput]

theorem foldl_pair_append {ι α β : Type} (A : ι → List α) (B : ι → List β) (s : List ι) :
    ∀ acc : List α × List β,
      s.foldl (fun acc i => (acc.1 ++ A i, acc.2 ++ B i)) acc =
        (acc.1 ++ (s.map A).flatten, acc.2 ++ (s.map B).flatten) := by
  induction s with
  | nil => intro acc; simp
  | cons i s ih =>
    intro acc
    rw [List.foldl_cons, ih]
    simp

theorem batchStarts_zero (k : Nat) (hk : 1 ≤ k) : batchStarts k 0 = [] := by
  rw [batchStarts]
  have : (0 + k - 1) / k = 0 := Nat.div_eq_of_lt (by omega)
  rw [this]
  rfl

theorem batchStarts_cons (k n : Nat) (hk : 1 ≤ k) (hn : 1 ≤ n) :
    batchStarts k n = 0 :: (batchStarts k (n - k)).map (fun i => i + k) := by
  have hm : (n + k - 1) / k = (n - 1) / k + 1 := by
    rw [show n + k - 1 = (n - 1) + k by omega, Nat.add_div_right _ (by omega)]
  have hm' : (n - k + k - 1) / k = (n - 1) / k := by
    by_cases hnk : n ≤ k
    · rw [show n - k = 0 by omega]
      rw [Nat.div_eq_of_lt (by omega), Nat.div_eq_of_lt (by omega)]
    · rw [show n - k + k - 1 = n - 1 by omega]
  rw [batchStarts, batchStarts, hm, hm', List.range_succ_eq_map]
  rw [List.map_cons, List.map_map, List.map_map, Nat.zero_mul]
  refine congrArg (0 :: ·) (List.map_congr_left ?_)
  intro j hj
  simp [Function.comp, Nat.succ_mul]

theorem chunks_flatten {α : Type} (k : Nat) (hk : 1 ≤ k) :
    ∀ (n : Nat) (l : List α), l.length = n →
      ((batchStarts k n).map (fun i => (l.drop i).take k)).flatten = l := by
  intro n
  induction n using Nat.strong_induction_on with
  | _ n ih =>
    intro l hl
    cases l with
    | nil =>
      rw [← hl, List.length_nil, batchStarts_zero k hk]
      rfl
    | cons a l' =>
      have hn : 1 ≤ n := by rw [← hl]; simp
      rw [batchStarts_cons k n hk hn, List.map_cons, List.flatten_cons, List.drop_zero]
      have hrest :
          ((batchStarts k (n - k)).map (fun i => i + k)).map
              (fun i => (((a :: l').drop i).take k)) =
            (batchStarts k (n - k)).map (fun i => (((a :: l').drop k).drop i).take k) := by
        rw [List.map_map]
        refine List.map_congr_left ?_
        intro j hj
        simp [Function.comp, List.drop_drop, Nat.add_comm]
      rw [hrest, ih (n - k) (by omega) ((a :: l').drop k) (by rw [List.length_drop, hl])]
      exact List.take_append_drop k (a :: l')

/-! ### First line selection -/

theorem head?_filter_eq_find? {α : Type} (p : α → Bool) (l : List α) :
    (l.filter p).head? = l.find? p := by
  induction l with
  | nil => rfl
  | cons a l ih =>
    by_cases ha : p a
    · simp [List.filter_cons, List.find?_cons, ha]
    · simp only [List.filter_cons, List.find?_cons] at *
      rw [if_neg (by simp [ha]), ih]
      cases hpa : p a
      · rfl
      · exact absurd hpa ha

/-! ### The batch loop for a positive batch size -/

theorem pyRangeZero_pos (n : Nat) (bs : Int) (hbs : 1 ≤ bs) :
    pyRangeZero n bs = some (batchStarts bs.toNat n) := by
  rw [pyRangeZero, if_neg (by omega), if_neg (by omega)]
  rfl

theorem estimate_pos_eq (gen : List Message → List Char) (drugs : List (List Char))
    (cot : Bool) (bs : Int) (hbs : 1 ≤ bs) :
    estimate_diabetes_probability gen drugs cot bs =
      some ((batchStarts bs.toNat drugs.length).foldl
        (fun acc i =>
          (((drugs.drop i).take bs.toNat).map
              (fun drug => create_conversation drug cot)).map gen |>.foldl processOutput acc)
        ([], [])) := by
  unfold estimate_diabetes_probability
  rw [pyRangeZero_pos _ _ hbs]

/-! ### Claim theorems -/

/-- Claim C1: for every input list and every `batch_size ≥ 1`, with the
engine returning one output per conversation in submission order,
`estimate_diabetes_probability` returns one probability entry and one
response entry per input drug, and the i-th entry is exactly the parse
(resp. the raw text) of the generation for the i-th drug: the contiguous
chunks concatenate back to the input list and batching never reorders
outputs. -/
theorem claim_C1_batch_order_preserving (gen : List Message → List Char)
    (drugs : List (List Char)) (cot : Bool) (bs : Int) (hbs : 1 ≤ bs) :
    estimate_diabetes_probability gen drugs cot bs =
      some (drugs.map (fun d => parseProbability (gen (create_conversation d cot))),
            drugs.map (fun d => gen (create_conversation d cot))) := by
  rw [estimate_pos_eq gen drugs cot bs hbs]
  have hk : 1 ≤ bs.toNat := by omega
  congr 1
  rw [List.foldl_ext _
      (fun (acc : List (Option ℚ) × List (List Char)) i =>
        (acc.1 ++ ((drugs.drop i).take bs.toNat).map
            (fun d => parseProbability (gen (create_conversation d cot))),
         acc.2 ++ ((drugs.drop i).take bs.toNat).map
            (fun d => gen (create_conversation d cot))))
      ([], [])
      (by
        intro acc i hi
        rw [List.map_map, foldl_processOutput, List.map_map]
        rfl)]
  rw [foldl_pair_append]
  have h1 : ((batchStarts bs.toNat drugs.length).map
      (fun i => ((drugs.drop i).take bs.toNat).map
        (fun d => parseProbability (gen (create_conversation d cot))))).flatten =
      drugs.map (fun d => parseProbability (gen (create_conversation d cot))) := by
    rw [show (fun i => ((drugs.drop i).take bs.toNat).map
        (fun d => parseProbability (gen (create_conversation d cot)))) =
      (fun l => l.map (fun d => parseProbability (gen (create_conversation d cot)))) ∘
        (fun i => (drugs.drop i).take bs.toNat) from rfl]
    rw [← List.map_map, ← List.map_flatten, chunks_flatten bs.toNat hk drugs.length drugs rfl]
  have h2 : ((batchStarts bs.toNat drugs.length).map
      (fun i => ((drugs.drop i).take bs.toNat).map
        (fun d => gen (create_conversation d cot)))).flatten =
      drugs.map (fun d => gen (create_conversation d cot)) := by
    rw [show (fun i => ((drugs.drop i).take bs.toNat).map
        (fun d => gen (create_conversation d cot))) =
      (fun l => l.map (fun d => gen (create_conversation d cot))) ∘
        (fun i => (drugs.drop i).take bs.toNat) from rfl]
    rw [← List.map_map, ← List.map_flatten, chunks_flatten bs.toNat hk drugs.length drugs rfl]
  rw [h1, h2]
  rfl

/-- Witness for claim C1 at a concrete input: two drugs, batch size 2. -/
theorem claim_C1_batch_order_preserving_witness :
    (1 : Int) ≤ 2 ∧
      estimate_diabetes_probability stubGen
          [("metformin").toList, ("insulin").toList] false 2 =
        some ([("metformin").toList, ("insulin").toList].map
                (fun d => parseProbability (stubGen (create_conversation d false))),
              [("metformin").toList, ("insulin").toList].map
                (fun d => stubGen (create_conversation d false))) :=
  ⟨by decide,
   claim_C1_batch_order_preserving stubGen
     [("metformin").toList, ("insulin").toList] false 2 (by decide)⟩

set_option maxRecDepth 100000 in
/-- Claim C7: for every drug string (empty included) and either flag,
`create_conversation` returns exactly two role-tagged messages — a fixed
system message independent of both arguments, then a user message
interpolating the drug into a fixed template — and the two template
variants differ by exactly the step-by-step clause while sharing the
same format-mandating closing clause, which contains the literal
`Estimated Probability:` marker. -/
theorem claim_C7_conversation_shape (drug : List Char) :
    create_conversation drug true =
      [⟨("system").toList, SYSTEM_PROMPT⟩,
       ⟨("user").toList,
        userPrefixA ++ drug ++ (userPrefixB ++ reasoningClause ++ formatClause)⟩] ∧
    create_conversation drug false =
      [⟨("system").toList, SYSTEM_PROMPT⟩,
       ⟨("user").toList, userPrefixA ++ drug ++ (userPrefixB ++ formatClause)⟩] ∧
    (("Estimated Probability:").toList <:+: formatClause) := by
  refine ⟨?_, ?_, by decide⟩
  · rfl
  · rfl

/-- Claim C8: the output filename is a function of the reasoning-mode
flag alone, and the two modes yield distinct filenames, so one mode
never overwrites the output of the other. -/
theorem claim_C8_save_path_distinct :
    save_path false = ("drug_t2d_15980_probas.parquet").toList ∧
      save_path true = ("drug_t2d_15980_probas_cot.parquet").toList ∧
      save_path false ≠ save_path true := by
  refine ⟨rfl, rfl, ?_⟩
  decide

/-- Claim C9: with the generation engine a fixed deterministic function,
two runs of `estimate_diabetes_probability` on the same inputs yield
identical probability and response lists. -/
theorem claim_C9_deterministic_runs (gen : List Message → List Char)
    (drugs : List (List Char)) (cot : Bool) (bs : Int)
    (r1 r2 : List (Option ℚ) × List (List Char))
    (h1 : estimate_diabetes_probability gen drugs cot bs = some r1)
    (h2 : estimate_diabetes_probability gen drugs cot bs = some r2) :
    r1.1 = r2.1 ∧ r1.2 = r2.2 := by
  rw [h1] at h2
  cases Option.some.inj h2
  exact ⟨rfl, rfl⟩

/-- Witness for claim C9: two runs on a one-element list with the stub
engine, both evaluating to the same concrete table. -/
theorem claim_C9_deterministic_runs_witness :
    estimate_diabetes_probability stubGen [("a").toList] false 1 =
        some ([some (Rat.divInt 1 2)], [("Estimated Probability: 0.5").toList]) ∧
      (([some (Rat.divInt 1 2)], [("Estimated Probability: 0.5").toList]) :
          List (Option ℚ) × List (List Char)).1 =
        (([some (Rat.divInt 1 2)], [("Estimated Probability: 0.5").toList]) :
          List (Option ℚ) × List (List Char)).1 ∧
      (([some (Rat.divInt 1 2)], [("Estimated Probability: 0.5").toList]) :
          List (Option ℚ) × List (List Char)).2 =
        (([some (Rat.divInt 1 2)], [("Estimated Probability: 0.5").toList]) :
          List (Option ℚ) × List (List Char)).2 :=
  ⟨by rfl,
   (claim_C9_deterministic_runs stubGen [("a").toList] false 1 _ _ (by rfl) (by rfl)).1,
   (claim_C9_deterministic_runs stubGen [("a").toList] false 1 _ _ (by rfl) (by rfl)).2⟩

/-- Claim C10: at batch size zero the loop header raises (modelled as
`none`) for every non-empty input, while every negative batch size
yields an empty iteration and two empty output lists, whatever the
input length; neither case is an explicit validation error. -/
theorem claim_C10_degenerate_batch_sizes :
    (∀ (gen : List Message → List Char) (drugs : List (List Char)) (cot : Bool),
      drugs ≠ [] → estimate_diabetes_probability gen drugs cot 0 = none) ∧
    (∀ (gen : List Message → List Char) (drugs : List (List Char)) (cot : Bool) (bs : Int),
      bs < 0 → estimate_diabetes_probability gen drugs cot bs = some ([], [])) := by
  constructor
  · intro gen drugs cot _
    unfold estimate_diabetes_probability pyRangeZero
    rw [if_pos rfl]
  · intro gen drugs cot bs hbs
    unfold estimate_diabetes_probability pyRangeZero
    rw [if_neg (by omega), if_pos hbs]
    rfl

/-- Witness for claim C10 at concrete degenerate batch sizes. -/
theorem claim_C10_degenerate_batch_sizes_witness :
    ([("a").toList] ≠ ([] : List (List Char))) ∧
      estimate_diabetes_probability stubGen [("a").toList] false 0 = none ∧
      ((-1 : Int) < 0) ∧
      estimate_diabetes_probability stubGen [("a").toList] false (-1) = some ([], []) :=
  ⟨by decide, claim_C10_degenerate_batch_sizes.1 stubGen [("a").toList] false (by decide),
   by decide, claim_C10_degenerate_batch_sizes.2 stubGen [("a").toList] false (-1) (by decide)⟩

theorem pySplit_get?_one_eq_none (sep : Char) (line : List Char) :
    (pySplit sep line).get? 1 = none ↔ sep ∉ line := by
  have hlen := pySplit_length sep line
  rw [List.get?_eq_none]
  constructor
  · intro h
    have hcount : line.count sep = 0 := by omega
    exact List.count_eq_zero.mp hcount
  · intro h
    have hcount : line.count sep = 0 := List.count_eq_zero.mpr h
    omega

/-- Claim C2: for every response whose first marker line is the
well-formed `Estimated Probability: <number>` with `<number>` a float
literal (in particular colon-free), the parse returns exactly the float
value of `<number>`, with no range validation — an out-of-range value
such as 1.5 is returned as-is. -/
theorem claim_C2_wellformed_parse (resp x : List Char) (q : ℚ)
    (hline : ((pySplit '\n' resp).filter (fun l => decide (markerL <:+: l))).head? =
      some (markerL ++ ':' :: ' ' :: x))
    (hx : ':' ∉ x)
    (hq : pyFloatQ x = some q) :
    parseProbability resp = some q := by
  unfold parseProbability
  cases hpl : (pySplit '\n' resp).filter (fun l => decide (markerL <:+: l)) with
  | nil => rw [hpl] at hline; simp at hline
  | cons ℓ rest =>
    rw [hpl] at hline
    simp only [List.head?_cons, Option.some.injEq] at hline
    subst hline
    have hsplit : pySplit ':' (markerL ++ ':' :: (' ' :: x)) = markerL :: [' ' :: x] := by
      rw [pySplit_append ':' markerL (' ' :: x) (by decide)]
      rw [pySplit_sep_free ':' (' ' :: x)]
      intro c hc
      rcases List.mem_cons.mp hc with h | h
      · rw [h]; decide
      · exact fun hcc => hx (hcc ▸ h)
    have htry : tryParseLine (markerL ++ ':' :: ' ' :: x) = pyFloatE (pyStrip (' ' :: x)) := by
      unfold tryParseLine
      rw [hsplit]
      rfl
    simp only [hpl]
    rw [htry, pyStrip_cons_ws ' ' x (by decide)]
    unfold pyFloatE
    rw [pyFloatQ_pyStrip, hq]

/-- Witness for claim C2: a two-line response whose marker line carries
the literal `1.5`, a value outside `[0, 1]`, returned unchanged. -/
theorem claim_C2_wellformed_parse_witness :
    (((pySplit '\n' ("noise\nEstimated Probability: 1.5").toList).filter
        (fun l => decide (markerL <:+: l))).head? =
      some (markerL ++ ':' :: ' ' :: ("1.5").toList)) ∧
    (':' ∉ ("1.5").toList) ∧
    (pyFloatQ ("1.5").toList = some (Rat.divInt 3 2)) ∧
    parseProbability ("noise\nEstimated Probability: 1.5").toList = some (Rat.divInt 3 2) :=
  ⟨by decide, by decide, by decide,
   claim_C2_wellformed_parse ("noise\nEstimated Probability: 1.5").toList ("1.5").toList
     (Rat.divInt 3 2) (by decide) (by decide) (by decide)⟩

/-- Counterexample to claim C3 as stated: on the marker line
`Estimated Probability: 0.5: extra`, the code parses the segment between
the two colons and returns 0.5, while the claimed algorithm (parse
everything after the first colon) fails and yields null. -/
theorem claim_C3_counterexample :
    parseProbability ("Estimated Probability: 0.5: extra").toList = some (Rat.divInt 1 2) ∧
      parseSpecAfterFirstColon ("Estimated Probability: 0.5: extra").toList = none := by
  constructor
  · rfl
  · rfl

/-- Claim C3 as amended: the parser takes the segment of the marker line
strictly between the first colon and the next colon (the whole remainder
only when no second colon exists), strips it, and parses that as a
float. -/
theorem claim_C3_segment_between_colons (resp line a b : List Char) (rest : List (List Char))
    (hpl : (pySplit '\n' resp).filter (fun l => decide (markerL <:+: l)) = line :: rest)
    (hline : line = a ++ ':' :: b)
    (ha : ':' ∉ a) :
    parseProbability resp = pyFloatQ (pyStrip (b.takeWhile (fun c => !(c == ':')))) := by
  unfold parseProbability
  simp only [hpl]
  obtain ⟨t, ht⟩ := pySplit_head ':' b
  have hsplit : pySplit ':' line = a :: (b.takeWhile (fun c => !(c == ':'))) :: t := by
    rw [hline, pySplit_append ':' a b (fun c hc hcc => ha (hcc ▸ hc)), ht]
  have htry : tryParseLine line =
      pyFloatE (pyStrip (b.takeWhile (fun c => !(c == ':')))) := by
    unfold tryParseLine
    rw [hsplit]
    rfl
  rw [htry]
  cases hfq : pyFloatQ (pyStrip (b.takeWhile (fun c => !(c == ':')))) with
  | none => unfold pyFloatE; rw [hfq]
  | some q => unfold pyFloatE; rw [hfq]

/-- Witness for amended claim C3 on a line with a second colon. -/
theorem claim_C3_segment_between_colons_witness :
    ((pySplit '\n' ("Estimated Probability: 0.42: note").toList).filter
        (fun l => decide (markerL <:+: l)) =
      [("Estimated Probability: 0.42: note").toList]) ∧
    (("Estimated Probability: 0.42: note").toList =
      markerL ++ ':' :: (" 0.42: note").toList) ∧
    (':' ∉ markerL) ∧
    parseProbability ("Estimated Probability: 0.42: note").toList =
      pyFloatQ (pyStrip ((" 0.42: note").toList.takeWhile (fun c => !(c == ':')))) :=
  ⟨by decide, by decide, by decide,
   claim_C3_segment_between_colons ("Estimated Probability: 0.42: note").toList
     ("Estimated Probability: 0.42: note").toList markerL (" 0.42: note").toList []
     (by decide) (by decide) (by decide)⟩

/-- Counterexample to claim C4 as stated: on
`Estimated Probability: 0.7: x` the text after the first colon
(` 0.7: x`) is not a valid float, so the claimed condition for null
holds, yet the code returns 0.7 (it parses only up to the second
colon). -/
theorem claim_C4_counterexample :
    (("Estimated Probability: 0.7: x").toList = markerL ++ ':' :: (" 0.7: x").toList) ∧
      pyFloatQ ((" 0.7: x").toList) = none ∧
      parseProbability ("Estimated Probability: 0.7: x").toList = some (Rat.divInt 7 10) :=
  ⟨by decide, by decide, by rfl⟩

/-- Claim C4 as amended: the parse is null exactly when no line contains
the marker, or the first marker line has no colon (index 1 of the colon
split is absent, which happens precisely when the line is colon-free),
or the extracted segment between the first and second colon is not a
valid float; the failure is a value, never a propagated exception. -/
theorem claim_C4_null_exactly_on_failure :
    (∀ resp : List Char,
      parseProbability resp = none ↔
        ((pySplit '\n' resp).filter (fun l => decide (markerL <:+: l)) = [] ∨
         ∃ line rest,
           (pySplit '\n' resp).filter (fun l => decide (markerL <:+: l)) = line :: rest ∧
             ((pySplit ':' line).get? 1 = none ∨
              ∃ second, (pySplit ':' line).get? 1 = some second ∧
                pyFloatQ (pyStrip second) = none))) ∧
    (∀ line : List Char, (pySplit ':' line).get? 1 = none ↔ ':' ∉ line) := by
  refine ⟨?_, pySplit_get?_one_eq_none ':'⟩
  intro resp
  unfold parseProbability
  cases hpl : (pySplit '\n' resp).filter (fun l => decide (markerL <:+: l)) with
  | nil => simp [hpl]
  | cons line rest =>
    simp only [hpl]
    cases hsec : (pySplit ':' line).get? 1 with
    | none =>
      have htry : tryParseLine line = Except.error PyErr.indexError := by
        unfold tryParseLine pyGet
        rw [hsec]
        rfl
      rw [htry]
      exact iff_of_true rfl (Or.inr ⟨line, rest, rfl, Or.inl hsec⟩)
    | some second =>
      cases hfq : pyFloatQ (pyStrip second) with
      | none =>
        have htry : tryParseLine line = Except.error PyErr.valueError := by
          unfold tryParseLine pyGet
          rw [hsec]
          show pyFloatE (pyStrip second) = _
          unfold pyFloatE
          rw [hfq]
        rw [htry]
        exact iff_of_true rfl (Or.inr ⟨line, rest, rfl, Or.inr ⟨second, hsec, hfq⟩⟩)
      | some q =>
        have htry : tryParseLine line = Except.ok q := by
          unfold tryParseLine pyGet
          rw [hsec]
          show pyFloatE (pyStrip second) = _
          unfold pyFloatE
          rw [hfq]
        rw [htry]
        refine iff_of_false (by simp) ?_
        rintro (h | ⟨line2, rest2, heq, h2⟩)
        · exact List.cons_ne_nil line rest h
        · injection heq with e1 e2
          subst e1
          rcases h2 with hnone | ⟨second2, hsec2, hfq2⟩
          · rw [hsec] at hnone
            cases hnone
          · rw [hsec] at hsec2
            injection hsec2 with e
            subst e
            rw [hfq] at hfq2
            cases hfq2

/-- Claim C5: the per-response step is a total function — it yields a
pair, never an error — whose parse failures appear only as a null entry,
and it extends the two accumulated lists by exactly one entry each,
leaving all previously accumulated results unchanged (they stay a
prefix). -/
theorem claim_C5_parse_total_local (acc : List (Option ℚ) × List (List Char))
    (response_text : List Char) :
    ∃ p : Option ℚ,
      processOutput acc response_text = (acc.1 ++ [p], acc.2 ++ [response_text]) ∧
        acc.1 <+: (processOutput acc response_text).1 ∧
        acc.2 <+: (processOutput acc response_text).2 :=
  ⟨parseProbability response_text, rfl, List.prefix_append _ _, List.prefix_append _ _⟩

/-- Claim C6: the marker line is chosen as the first line (splitting on
newlines, in order) containing the literal substring
`Estimated Probability`, case-sensitively and not anchored to line
start: the parse equals the parse of the `find?` result; a lowercase
variant is not a match and a lowercase first line is skipped; when
several lines match, the first is used even when the marker sits
mid-line. -/
theorem claim_C6_marker_selection :
    (∀ resp : List Char,
      parseProbability resp =
        match (pySplit '\n' resp).find? (fun l => decide (markerL <:+: l)) with
        | none => none
        | some line =>
          match tryParseLine line with
          | Except.ok q => some q
          | Except.error _ => none) ∧
    (¬ (markerL <:+: ("estimated probability: 0.5").toList)) ∧
    parseProbability ("estimated probability: 0.5\nEstimated Probability: 0.25").toList =
      some (Rat.divInt 1 4) ∧
    parseProbability ("xx Estimated Probability: 0.5\nEstimated Probability: 0.75").toList =
      some (Rat.divInt 1 2) := by
  refine ⟨?_, by decide, by rfl, by rfl⟩
  intro resp
  unfold parseProbability
  rw [← head?_filter_eq_find?]
  cases hpl : (pySplit '\n' resp).filter (fun l => decide (markerL <:+: l)) with
  | nil => simp [hpl]
  | cons line rest => simp [hpl]
